import Mathlib

/-!
Verification of the data-normalization pipeline of the SNP-Printavo order
importer (`data_processing.py`).  The Python functions are shallowly embedded
as executable Lean definitions: strings are Lean `String`s (operated on via
their character lists), Python's unbounded `int` is `Int`, dictionaries with
optional keys become structures with default fields, and the insertion-ordered
grouping dictionaries of `sum_duplicates` / `consolidate_items` become
association lists updated in place.
-/

set_option maxRecDepth 100000

/-! ### Python string primitives -/

/-- The whitespace characters stripped by Python's `str.strip()` (ASCII range). -/
def isPySpace (c : Char) : Bool :=
  c = ' ' || c = '\t' || c = '\n' || c = '\r' || c = '\x0b' || c = '\x0c'

/-- `str.strip()` on a character list: drop whitespace from both ends. -/
def pyStripList (cs : List Char) : List Char :=
  ((cs.dropWhile isPySpace).reverse.dropWhile isPySpace).reverse

/-- Python `s.strip()`. -/
def pyStrip (s : String) : String := ⟨pyStripList s.data⟩

/-- Python `s.upper()` (ASCII letters; sufficient for the size codes and keys used here). -/
def pyUpper (s : String) : String := ⟨s.data.map Char.toUpper⟩

/-- First element of `re.split(r'[\s\(]', s)`: the prefix of `s` up to (excluding)
the first whitespace or opening parenthesis. -/
def firstToken (cs : List Char) : List Char :=
  cs.takeWhile (fun c => !(isPySpace c || c = '('))

/-! ### Size mapping and normalization (`SIZE_MAP_NORMALIZE`, `parse_size_field`,
`is_tall_size`, `get_base_size`) -/

/-- The `SIZE_MAP_NORMALIZE` dictionary, in source order (all keys are distinct,
so association-list lookup agrees with the Python dict). -/
def SIZE_MAP_NORMALIZE : List (String × String) :=
  [("SMALL", "S"), ("MEDIUM", "M"), ("LARGE", "L"),
   ("EXTRA LARGE", "XL"), ("EXTRALARGE", "XL"),
   ("YXS", "YXS"), ("Y-XS", "YXS"),
   ("YS", "YS"), ("Y-S", "YS"),
   ("YM", "YM"), ("Y-M", "YM"),
   ("YL", "YL"), ("Y-L", "YL"),
   ("YXL", "YXL"), ("Y-XL", "YXL"),
   ("XS", "XS"), ("S", "S"), ("M", "M"), ("L", "L"), ("XL", "XL"),
   ("2XL", "2XL"), ("XXL", "2XL"),
   ("3XL", "3XL"), ("XXXL", "3XL"),
   ("4XL", "4XL"), ("5XL", "5XL"), ("6XL", "6XL"),
   ("6M", "6M"), ("12M", "12M"), ("18M", "18M"), ("24M", "24M"),
   ("2T", "2T"), ("3T", "3T"), ("4T", "4T"), ("5T", "5T")]

/-- `parse_size_field`: empty input yields `""`; otherwise strip, keep the first
token (up to whitespace or `(`), upper-case it and look it up in
`SIZE_MAP_NORMALIZE`, returning the token unchanged when it is not in the table. -/
def parse_size_field (size_str : String) : String :=
  if size_str = "" then ""
  else
    let size_clean := pyUpper ⟨firstToken (pyStripList size_str.data)⟩
    match List.lookup size_clean SIZE_MAP_NORMALIZE with
    | some v => v
    | none => size_clean

/-- `is_tall_size`: size ends with `'T'`, has length at least 2, and is not a
toddler size. -/
def is_tall_size (size : String) : Bool :=
  if size = "" || size.length < 2 then false
  else if size = "2T" || size = "3T" || size = "4T" || size = "5T" then false
  else size.data.getLastD ' ' = 'T'

/-- `get_base_size`: strip the trailing `'T'` from a tall size (`tall_size[:-1]`). -/
def get_base_size (tall_size : String) : String :=
  if is_tall_size tall_size then ⟨tall_size.data.dropLast⟩ else tall_size

/-! ### Data model

The item dictionaries built by `parse_rows_to_items` always carry the keys
`quantity`, `size`, `item_num`, `color`, `description`, `_row_num`,
`_size_raw`; the keys `_is_tall`, `_original_size`, `_summed_from` are added
later by `process_tall_sizes` / `sum_duplicates` and are modelled by fields
with defaults standing for "key absent". -/

structure Item where
  quantity : Int
  size : String
  item_num : String
  color : String
  description : String
  row_num : Nat
  size_raw : String
  is_tall : Bool := false
  original_size : String := ""
  summed_from : Option (List Nat) := none
  deriving DecidableEq, Repr, Inhabited

/-- One `{'size': ..., 'quantity': ...}` entry of a consolidated record. -/
structure SizeEntry where
  size : String
  quantity : Int
  deriving DecidableEq, Repr, Inhabited

/-- A record built by `consolidate_items`. -/
structure Consolidated where
  item_num : String
  color : String
  description : String
  sizes : List SizeEntry
  total_quantity : Int
  deriving DecidableEq, Repr, Inhabited

/-! ### Numeric cell parsing: a model of Python `float()` and `int()`

`parse_rows_to_items` coerces quantity cells with `int(float(s))` and
canonicalizes item numbers through `float`/`int` round-tripping.  `float()`
is modelled faithfully for ASCII input: the full literal grammar (optional
surrounding whitespace and sign, digits with single underscores between
them, optional fraction, optional `e`/`E` exponent, and the special names
`inf`/`infinity`/`nan`, case-insensitive), followed by correct rounding of
the exact decimal value to an IEEE-754 binary64 value (round-to-nearest,
ties-to-even, overflow to infinity, gradual underflow), computed with exact
integer arithmetic.  `int()` truncates a finite float towards zero, raises a
caught `ValueError` on `nan`, and raises an *uncaught* `OverflowError` on an
infinity — the one numeric path that aborts `parse_rows_to_items` whole. -/

/-- Value of a digit string (most significant first). -/
def digitsToNat (ds : List Char) : Nat :=
  ds.foldl (fun acc c => acc * 10 + (c.toNat - 48)) 0

/-- Underscore placement in a Python numeric literal: every `'_'` must sit
between two digits.  `prev` is the character before the list. -/
def underscoreRun : Char → List Char → Bool
  | _, [] => true
  | prev, c :: rest =>
      if c = '_' then
        match rest with
        | [] => false
        | c2 :: _ => prev.isDigit && c2.isDigit && underscoreRun c rest
      else underscoreRun c rest

/-- Whole-literal underscore check (no leading underscore, every underscore
between digits). -/
def underscoresOK (cs : List Char) : Bool :=
  match cs with
  | [] => true
  | c :: rest => (c != '_') && underscoreRun c rest

/-- A parsed finite decimal literal: sign, mantissa digits (integer and
fractional parts concatenated) and the decimal exponent of the last digit,
so the value is `± digits * 10 ^ exp10`. -/
structure DecLit where
  neg : Bool
  digits : List Char
  exp10 : Int
  deriving DecidableEq, Repr

/-- What `float()` reads from a (sign-stripped, underscore-free) body. -/
inductive FloatTok where
  | fin (l : DecLit)
  | infTok (neg : Bool)
  | nanTok
  deriving DecidableEq, Repr

/-- The `[eE][+-]?digits` exponent suffix; must consume the whole rest. -/
def parseExpPart (cs : List Char) : Option Int :=
  match cs with
  | '+' :: r =>
      if r ≠ [] ∧ r.all Char.isDigit then some ((digitsToNat r : Int)) else none
  | '-' :: r =>
      if r ≠ [] ∧ r.all Char.isDigit then some (-(digitsToNat r : Int)) else none
  | r =>
      if r ≠ [] ∧ r.all Char.isDigit then some ((digitsToNat r : Int)) else none

/-- The body of a float literal after the sign: the special names, or digits
with an optional fraction and an optional exponent; at least one mantissa
digit is required. -/
def parseFloatBody (neg : Bool) (cs : List Char) : Option FloatTok :=
  if cs.map Char.toLower = "inf".data ∨ cs.map Char.toLower = "infinity".data then
    some (.infTok neg)
  else if cs.map Char.toLower = "nan".data then some .nanTok
  else
    match cs.drop (cs.takeWhile Char.isDigit).length with
    | [] =>
        if cs.takeWhile Char.isDigit = [] then none
        else some (.fin ⟨neg, cs.takeWhile Char.isDigit, 0⟩)
    | '.' :: r2 =>
        if cs.takeWhile Char.isDigit = [] ∧ r2.takeWhile Char.isDigit = [] then none
        else
          match r2.drop (r2.takeWhile Char.isDigit).length with
          | [] =>
              some (.fin ⟨neg, cs.takeWhile Char.isDigit ++ r2.takeWhile Char.isDigit,
                -((r2.takeWhile Char.isDigit).length : Int)⟩)
          | c :: r4 =>
              if c = 'e' ∨ c = 'E' then
                (parseExpPart r4).map (fun ex =>
                  .fin ⟨neg, cs.takeWhile Char.isDigit ++ r2.takeWhile Char.isDigit,
                    ex - ((r2.takeWhile Char.isDigit).length : Int)⟩)
              else none
    | c :: r4 =>
        if (c = 'e' ∨ c = 'E') ∧ cs.takeWhile Char.isDigit ≠ [] then
          (parseExpPart r4).map (fun ex => .fin ⟨neg, cs.takeWhile Char.isDigit, ex⟩)
        else none

/-- The token read by `float(s)`: strip surrounding whitespace, check
underscore placement, take the optional sign, remove underscores, parse the
body.  `none` models `ValueError`. -/
def pyFloatTok (s : String) : Option FloatTok :=
  if underscoresOK (pyStripList s.data) then
    match (pyStripList s.data).filter (fun c => c != '_') with
    | '+' :: rest => parseFloatBody false rest
    | '-' :: rest => parseFloatBody true rest
    | rest => parseFloatBody false rest
  else none

/-- Bit length of `n` (`0` for `0`), with explicit fuel; exact whenever
`fuel` is at least the bit length. -/
def natBits : Nat → Nat → Nat
  | 0, _ => 0
  | fuel + 1, n => if n = 0 then 0 else natBits fuel (n / 2) + 1

/-- An IEEE-754 binary64 value as produced by `float()`: a finite value
`M * 2 ^ E` with `|M| < 2 ^ 53`, an infinity, or `nan`. -/
inductive PyFloat where
  | finite (M : Int) (E : Int)
  | inf (neg : Bool)
  | nan
  deriving DecidableEq, Repr

/-- `⌊(p / q) / 2 ^ e⌋` by exact integer division (`Int.toNat` of a negative
number is `0`, so exactly one side is scaled). -/
def floorScaled (p q : Nat) (e : Int) : Nat :=
  (p * 2 ^ (-e).toNat) / (q * 2 ^ e.toNat)

/-- Round the exact decimal `± mant * 10 ^ e10` — where `mant` has exactly
`L` digits, i.e. `10^(L-1) ≤ mant < 10^L` — to the nearest binary64 value,
ties to even, with overflow to infinity and gradual underflow.  Exponents far
out of the binary64 range are clamped first (`value ≥ 10^309` overflows,
`value < 10^-324` is below half the least subnormal), so only moderate powers
are ever computed; within range the scaled significand estimate from the
exact bit lengths is off by at most one binade and is corrected once. -/
def roundDecimal (neg : Bool) (mant : Nat) (L : Nat) (e10 : Int) : PyFloat :=
  if mant = 0 then .finite 0 0
  else if 310 ≤ (L : Int) + e10 then .inf neg
  else if (L : Int) + e10 ≤ -324 then .finite 0 0
  else
    let p := if 0 ≤ e10 then mant * 10 ^ e10.toNat else mant
    let q := if 0 ≤ e10 then 1 else 10 ^ (-e10).toNat
    let fuel := 4 * (L + 400)
    let e0 : Int := (natBits fuel p : Int) - (natBits fuel q : Int) - 53
    let e1 := if 2 ^ 53 ≤ floorScaled p q e0 then e0 + 1 else e0
    let e2 := if e1 < -1074 then (-1074 : Int) else e1
    let num := p * 2 ^ (-e2).toNat
    let den := q * 2 ^ e2.toNat
    let n := num / den
    let r := num % den
    let n1 := if den < 2 * r then n + 1
              else if 2 * r < den then n
              else if n % 2 = 0 then n else n + 1
    let n2 := if n1 = 2 ^ 53 then 2 ^ 52 else n1
    let e3 := if n1 = 2 ^ 53 then e2 + 1 else e2
    if 971 < e3 then .inf neg
    else .finite (if neg then -(n2 : Int) else (n2 : Int)) e3

/-- `float(s)`; `none` models `ValueError`.  Leading zeros are stripped from
the mantissa before rounding so its digit count is exact. -/
def pyFloat (s : String) : Option PyFloat :=
  (pyFloatTok s).map (fun tok =>
    match tok with
    | .infTok neg => .inf neg
    | .nanTok => .nan
    | .fin l =>
        roundDecimal l.neg (digitsToNat (l.digits.dropWhile (fun c => c = '0')))
          (l.digits.dropWhile (fun c => c = '0')).length l.exp10)

/-- `int(x)` of a finite float: truncation towards zero. -/
def truncDouble (M E : Int) : Int :=
  if 0 ≤ E then M * 2 ^ E.toNat
  else if M < 0 then -((M.natAbs / 2 ^ (-E).toNat : Nat) : Int)
  else ((M.natAbs / 2 ^ (-E).toNat : Nat) : Int)

/-- `x == int(x)` for a finite float: the value is an integer. -/
def isIntegerDouble (M E : Int) : Bool :=
  decide (0 ≤ E) || decide (M.natAbs % 2 ^ (-E).toNat = 0)

/-- Outcome of `int(float(s))` on a quantity cell. -/
inductive PyIntResult where
  | ok (q : Int)
  | valueError
  | overflowError
  deriving DecidableEq, Repr

/-- `int(float(s))`: a caught `ValueError` for unparseable strings and for
`nan`, the uncaught `OverflowError` for infinities, otherwise the truncated
value. -/
def pyIntOfFloat (s : String) : PyIntResult :=
  match pyFloat s with
  | none => .valueError
  | some .nan => .valueError
  | some (.inf _) => .overflowError
  | some (.finite M E) => .ok (truncDouble M E)

/-- Result of the item-number fixup: the (possibly replaced) string, or the
uncaught `OverflowError` from `int(float_val)` on an infinite value. -/
inductive CanonResult where
  | ok (s : String)
  | overflow
  deriving DecidableEq, Repr

/-- The item-number fixup of `parse_rows_to_items` (lines 267-275): for a
nonempty trimmed cell containing a `'.'` that `float()` accepts, the code
compares the float with `int()` of it — the `OverflowError` of `int()` on an
infinity escapes the `except ValueError`, `nan`'s `ValueError` is caught —
and replaces the cell by `str(int(float_val))` when they are equal; in every
other case the cell is kept unchanged. -/
def canonItemNum (s : String) : CanonResult :=
  if s ≠ "" ∧ '.' ∈ s.data then
    match pyFloat s with
    | some (.finite M E) =>
        if isIntegerDouble M E then .ok (toString (truncDouble M E)) else .ok s
    | some (.inf _) => .overflow
    | some .nan => .ok s
    | none => .ok s
  else .ok s

/-! ### Row parsing (`parse_rows_to_items`) -/

/-- A single-quote character, used in warning messages. -/
def sqCh : String := String.singleton '\x27'

/-- Guarded cell access: `row[i] if i < len(row) else ""`. -/
def cellAt (row : List String) (i : Nat) : String :=
  if h : i < row.length then row.get ⟨i, h⟩ else ""

/-- Guarded cell access through an optional column index:
`row[i] if i is not None and i < len(row) else ""`. -/
def cellAtOpt (row : List String) (oi : Option Nat) : String :=
  match oi with
  | none => ""
  | some i => cellAt row i

/-- The column map produced by `detect_columns`. -/
structure ColumnMap where
  qty : Option Nat
  size : Option Nat
  item_num : Option Nat
  color : Option Nat
  deriving DecidableEq, Repr

/-- Outcome of the loop body of `parse_rows_to_items` for one row; `fatal`
is an exception escaping the loop (the `OverflowError` of `int()` on an
infinite float). -/
inductive RowResult where
  | keep (it : Item)
  | drop (w : String)
  | blank
  | fatal (msg : String)
  deriving DecidableEq, Repr

/-- The loop body of `parse_rows_to_items` for one raw row: skip blank rows;
parse `int(float(qty))` (empty cell coerces to 0), warning on a caught
`ValueError`, aborting on the uncaught `OverflowError` of an infinite float;
drop non-positive quantities with a warning; normalize the size cell;
strip/canonicalize the item number (same uncaught `OverflowError` there),
dropping the row with a warning when it is empty; strip the color; record
the item with its provenance row number. -/
def processRow (qi ii : Nat) (si ci : Option Nat) (rowNum : Nat)
    (row : List String) : RowResult :=
  if row = [] ∨ row.all (fun cell => cell = "") then .blank
  else
    match (if cellAt row qi = "" then PyIntResult.ok 0
           else pyIntOfFloat (cellAt row qi)) with
    | .valueError =>
        .drop ("Row " ++ toString rowNum ++ ": Invalid quantity " ++ sqCh
          ++ cellAt row qi ++ sqCh ++ " - skipped")
    | .overflowError => .fatal "cannot convert float infinity to integer"
    | .ok quantity =>
        if quantity ≤ 0 then
          .drop ("Row " ++ toString rowNum ++ ": Zero/negative quantity - skipped")
        else
          match canonItemNum (pyStrip (cellAt row ii)) with
          | .overflow => .fatal "cannot convert float infinity to integer"
          | .ok item_num =>
              if item_num = "" then
                .drop ("Row " ++ toString rowNum ++ ": Missing item number - skipped")
              else
                .keep { quantity := quantity,
                        size := parse_size_field (cellAtOpt row si),
                        item_num := pyStrip item_num,
                        color := pyStrip (pyStrip (cellAtOpt row ci)),
                        description := "", row_num := rowNum,
                        size_raw := cellAtOpt row si }

/-- The row loop: items and warnings are appended in row order, the row
counter advances on every row (including skipped ones), and an uncaught
exception aborts the whole loop, discarding the partial output. -/
def parseLoop (qi ii : Nat) (si ci : Option Nat) :
    Nat → List (List String) → Except String (List Item × List String)
  | _, [] => .ok ([], [])
  | rowNum, row :: rest =>
      match processRow qi ii si ci rowNum row with
      | .fatal msg => .error msg
      | .keep it =>
          match parseLoop qi ii si ci (rowNum + 1) rest with
          | .ok r => .ok (it :: r.1, r.2)
          | .error msg => .error msg
      | .drop w =>
          match parseLoop qi ii si ci (rowNum + 1) rest with
          | .ok r => .ok (r.1, w :: r.2)
          | .error msg => .error msg
      | .blank => parseLoop qi ii si ci (rowNum + 1) rest

/-- The uncaught exceptions `parse_rows_to_items` can raise: the deliberate
`ValueError` for unresolved mandatory columns, and the `OverflowError`
escaping `int()` on an infinite float. -/
inductive PyError where
  | valueError (msg : String)
  | overflowError (msg : String)
  deriving DecidableEq, Repr

/-- `parse_rows_to_items`: fatal `ValueError` when the column map resolved
`qty` or `item_num` to `None`; otherwise the per-row loop starting at data
row 2, whose own uncaught exception is the `OverflowError`. -/
def parse_rows_to_items (_headers : List String) (rows : List (List String))
    (cm : ColumnMap) : Except PyError (List Item × List String) :=
  match cm.qty, cm.item_num with
  | some qi, some ii =>
      match parseLoop qi ii cm.size cm.color 2 rows with
      | .ok r => .ok r
      | .error msg => .error (.overflowError msg)
  | _, _ =>
      .error (.valueError "Required columns not found: qty and item_num are mandatory")

/-! ### Tall-size expansion (`process_tall_sizes`) -/

/-- The loop body of `process_tall_sizes` for one item: tall items get the
base size, `" - Tall"` appended to the description
(`(item.get("description") or "") + " - Tall"`), and tall provenance; other
items pass through unchanged. -/
def tallStep (it : Item) : Item :=
  if is_tall_size it.size then
    { it with
      size := get_base_size it.size
      description := (if it.description = "" then "" else it.description) ++ " - Tall"
      is_tall := true
      original_size := it.size }
  else it

/-- `process_tall_sizes`: the loop appends the processed form of each item to
an initially empty list. -/
def process_tall_sizes (items : List Item) : List Item :=
  items.foldl (fun processed it => processed ++ [tallStep it]) []

/-! ### Grouping dictionaries

`sum_duplicates` and `consolidate_items` both accumulate a Python dict whose
keys are derived from the item and whose values are built up in place; Python
dicts preserve key insertion order, so the dict is modelled by an association
list: a new key is appended at the end, an existing key's payload is updated
in place. -/

/-- One dict-insertion step: update the payload of an existing key, or append
a fresh entry for a new key. -/
def groupFold {α κ β : Type} [DecidableEq κ] (keyf : α → κ) (init : α → β)
    (upd : β → α → β) : List (κ × β) → α → List (κ × β)
  | [], a => [(keyf a, init a)]
  | g :: gs, a =>
      if g.1 = keyf a then (g.1, upd g.2 a) :: gs
      else g :: groupFold keyf init upd gs a

/-- The grouping key of `sum_duplicates`:
`(item_num.strip().upper(), color.strip().upper(), size.strip().upper())`. -/
def key3 (it : Item) : String × String × String :=
  (pyUpper (pyStrip it.item_num), pyUpper (pyStrip it.color), pyUpper (pyStrip it.size))

/-- Building one summed item from a finished group: the first group member is
the template, its quantity is replaced by the group sum, and `_summed_from`
records the contributing row numbers when more than one row was merged. -/
def mkSummed (g : (String × String × String) × Int × List Item) : Item :=
  let base := g.2.2.headD default
  { base with
    quantity := g.2.1
    summed_from := if 1 < g.2.2.length then some (g.2.2.map Item.row_num)
                   else base.summed_from }

/-- `sum_duplicates`: group by `key3` accumulating the quantity sum and the
member list, then emit one summed item per group in key insertion order. -/
def sum_duplicates (items : List Item) : List Item :=
  (items.foldl
    (groupFold key3 (fun it => (it.quantity, ([it] : List Item)))
      (fun b it => (b.1 + it.quantity, b.2 ++ [it]))) []).map mkSummed

/-- The grouping key of `consolidate_items`:
`(item_num.strip().upper(), color.strip().upper())`. -/
def key2 (it : Item) : String × String :=
  (pyUpper (pyStrip it.item_num), pyUpper (pyStrip it.color))

/-- Fresh consolidated record for a first-seen key, already holding the
item's size entry and quantity. -/
def consInit (it : Item) : Consolidated :=
  { item_num := it.item_num, color := it.color,
    description := it.description,
    sizes := [{ size := it.size, quantity := it.quantity }],
    total_quantity := it.quantity }

/-- Adding one more item to an existing consolidated record. -/
def consUpd (r : Consolidated) (it : Item) : Consolidated :=
  { r with
    sizes := r.sizes ++ [{ size := it.size, quantity := it.quantity }]
    total_quantity := r.total_quantity + it.quantity }

/-- `consolidate_items`: group by `key2`, then return the records in key
insertion order (`list(grouped.values())`). -/
def consolidate_items (items : List Item) : List Consolidated :=
  (items.foldl (groupFold key2 consInit consUpd) []).map Prod.snd

/-! ### Characterizing the grouping folds

A Python dict built by repeated "insert-or-update" visits its keys in first
insertion order.  `fdedup l` is the list of elements of `l` with duplicates
removed keeping first occurrences; the grouping folds are then shown to equal
a map over `fdedup` of the per-key payload computed from the filtered input. -/

/-- First-occurrence deduplication. -/
def fdedup {κ : Type} [DecidableEq κ] (l : List κ) : List κ :=
  l.foldl (fun acc k => if k ∈ acc then acc else acc ++ [k]) []

/-- Payload of one finished dict entry: the first item seeds it via `init`,
later items are folded in via `upd`.  Only ever applied to nonempty lists. -/
def payloadOf {α β : Type} [Inhabited β] (init : α → β) (upd : β → α → β) :
    List α → β
  | [] => default
  | a :: rest => rest.foldl upd (init a)

/-! ### Inputs used by the concrete scenarios -/

/-- The tokens recognized by the size table: its keys together with the
canonical codes it produces. -/
def recognizedSizeTokens : List String :=
  SIZE_MAP_NORMALIZE.map Prod.fst ++ SIZE_MAP_NORMALIZE.map Prod.snd

/-- Modelled from the spec's description of size parsing: strip surrounding
whitespace, keep only the leading token (splitting at the first whitespace or
opening parenthesis), upper-case it, and map it through the size table,
returning unmapped tokens unchanged. -/
def sizeFieldSpec (s : String) : String :=
  let tok := pyUpper ⟨firstToken (pyStripList s.data)⟩
  match List.lookup tok SIZE_MAP_NORMALIZE with
  | some v => v
  | none => tok

/-- An item whose description already ends in `" - Tall"`, fed to the tall
expander. -/
def tallCexItem : Item :=
  { quantity := 4, size := "LT", item_num := "PC61T", color := "Black",
    description := "Tall Tee" ++ " - Tall", row_num := 2, size_raw := "LT" }

/-- A tall item as produced by the row parser (blank description). -/
def tallWitItem : Item :=
  { quantity := 5, size := "LT", item_num := "A1", color := "Red",
    description := "", row_num := 2, size_raw := "LT" }

/-- An item as produced by `parse_rows_to_items` (blank description, no tall
or summing provenance yet). -/
def mkParsedItem (n c size : String) (q : Int) (rn : Nat) (sraw : String) : Item :=
  { quantity := q, size := size, item_num := n, color := c,
    description := "", row_num := rn, size_raw := sraw }

/-- Three parsed rows with the same (item_num, color, size) key and
quantities 5, 3, 2. -/
def dupItems : List Item :=
  [mkParsedItem "PC61" "Black" "L" 5 2 "L",
   mkParsedItem "PC61" "Black" "L" 3 3 "L",
   mkParsedItem "PC61" "Black" "L" 2 4 "L"]

/-- The shared key of `dupItems`. -/
def dupKey : String × String × String := ("PC61", "BLACK", "L")

/-- The grouping key read back from a consolidated record. -/
def consKey (r : Consolidated) : String × String :=
  (pyUpper (pyStrip r.item_num), pyUpper (pyStrip r.color))

/-- Two parsed rows whose item numbers differ only in case. -/
def consItems : List Item :=
  [mkParsedItem "abc123" "Navy" "S" 5 2 "S",
   mkParsedItem "ABC123" "Navy" "M" 3 3 "M"]

/-- The shared consolidation key of `consItems`. -/
def consKeyW : String × String := ("ABC123", "NAVY")

/-- Demo headers for single-row parsing scenarios. -/
def hsDemo : List String := ["Qty", "Item Num"]

/-- Demo column map: quantity in column 0, item number in column 1. -/
def cmDemo : ColumnMap := ⟨some 0, none, some 1, none⟩

/-- The item produced by `processRow` for the demo row `["1", s]` when the
canonicalized item number is `t`. -/
def demoKeepItem (t : String) : Item :=
  { quantity := 1, size := "", item_num := pyStrip t,
    color := "", description := "", row_num := 2, size_raw := "" }

/-- Padding a short row to a target width with empty cells. -/
def padRow (n : Nat) (row : List String) : List String :=
  row ++ List.replicate (n - row.length) ""

/-! ### Theorems: general lemmas, the characterizations of the grouping
stages, and one theorem (with witness where hypotheses occur) per verified
property of the pipeline -/

example : parse_size_field "2XL ($3.50)" = "2XL" := by decide

example : parse_size_field "Small" = "S" := by decide

example : is_tall_size "LT" = true := by decide

example : is_tall_size "2T" = false := by decide

example : get_base_size "XLT" = "XL" := by decide

example : pyIntOfFloat "5.0" = .ok 5 := by decide

example : pyIntOfFloat "-3.7" = .ok (-3) := by decide

example : pyIntOfFloat "abc" = .valueError := by decide

example : pyIntOfFloat " 5" = .ok 5 := by decide

example : pyIntOfFloat "1e3" = .ok 1000 := by decide

example : pyIntOfFloat "1_0" = .ok 10 := by decide

example : pyIntOfFloat "inf" = .overflowError := by decide

example : pyIntOfFloat "-Infinity" = .overflowError := by decide

example : pyIntOfFloat "nan" = .valueError := by decide

example : pyIntOfFloat "1_" = .valueError := by decide

example : pyIntOfFloat "0.4999999999999999999999" = .ok 0 := by decide

example : canonItemNum "112.0" = .ok "112" := by decide

example : canonItemNum "112.5" = .ok "112.5" := by decide

example : canonItemNum "PC61.G" = .ok "PC61.G" := by decide

example : canonItemNum "1.5e2" = .ok "150" := by decide

example : canonItemNum "1_2.0" = .ok "12" := by decide

example : canonItemNum "123456789012345678.0" = .ok "123456789012345680" := by decide

example : canonItemNum "1.5e400" = .overflow := by decide

example :
    parse_rows_to_items ["Qty", "Item Num"] [["1", "112.0"]]
      ⟨some 0, none, some 1, none⟩ =
    .ok ([{ quantity := 1, size := "", item_num := "112", color := "",
            description := "", row_num := 2, size_raw := "" }], []) := rfl

example :
    process_tall_sizes
      [{ quantity := 5, size := "LT", item_num := "A", color := "B",
         description := "", row_num := 2, size_raw := "LT" }] =
      [{ quantity := 5, size := "L", item_num := "A", color := "B",
         description := " - Tall", row_num := 2, size_raw := "LT",
         is_tall := true, original_size := "LT" }] := by decide

example :
    (sum_duplicates
      [{ quantity := 5, size := "L", item_num := "A", color := "B",
         description := "", row_num := 2, size_raw := "L" },
       { quantity := 3, size := "l", item_num := "a", color := "b",
         description := "x", row_num := 3, size_raw := "l" }]).map Item.quantity
      = [8] := by decide

example :
    (consolidate_items
      [{ quantity := 5, size := "S", item_num := "abc123", color := "Navy",
         description := "", row_num := 2, size_raw := "S" },
       { quantity := 3, size := "M", item_num := "ABC123", color := "navy",
         description := "", row_num := 3, size_raw := "M" }]).map
        Consolidated.total_quantity = [8] := by decide

theorem fdedup_concat {κ : Type} [DecidableEq κ] (l : List κ) (a : κ) :
    fdedup (l ++ [a]) = if a ∈ fdedup l then fdedup l else fdedup l ++ [a] := by
  simp [fdedup, List.foldl_append]

theorem mem_fdedup {κ : Type} [DecidableEq κ] (l : List κ) :
    ∀ x, x ∈ fdedup l ↔ x ∈ l := by
  induction l using List.reverseRecOn with
  | nil => simp [fdedup]
  | append_singleton l a ih =>
      intro x
      rw [fdedup_concat]
      by_cases h : a ∈ fdedup l
      · rw [if_pos h]
        have ha : a ∈ l := (ih a).mp h
        rw [ih x]
        simp only [List.mem_append, List.mem_singleton]
        constructor
        · exact fun hx => Or.inl hx
        · rintro (hx | rfl)
          · exact hx
          · exact ha
      · rw [if_neg h]
        simp [ih x]

theorem nodup_fdedup {κ : Type} [DecidableEq κ] (l : List κ) :
    (fdedup l).Nodup := by
  induction l using List.reverseRecOn with
  | nil => simp [fdedup]
  | append_singleton l a ih =>
      rw [fdedup_concat]
      by_cases h : a ∈ fdedup l
      · rwa [if_pos h]
      · rw [if_neg h]
        rw [List.nodup_append]
        refine ⟨ih, List.nodup_singleton a, ?_⟩
        intro x hx hxa
        rw [List.mem_singleton] at hxa
        exact h (hxa ▸ hx)

theorem payloadOf_concat {α β : Type} [Inhabited β] (init : α → β)
    (upd : β → α → β) (xs : List α) (a : α) (h : xs ≠ []) :
    payloadOf init upd (xs ++ [a]) = upd (payloadOf init upd xs) a := by
  cases xs with
  | nil => exact absurd rfl h
  | cons x rest => simp [payloadOf, List.foldl_append]

theorem groupFold_on_map {α κ β : Type} [DecidableEq κ] (keyf : α → κ)
    (init : α → β) (upd : β → α → β) (ks : List κ) (f : κ → β) (a : α)
    (hnd : ks.Nodup) :
    groupFold keyf init upd (ks.map (fun k => (k, f k))) a =
      if keyf a ∈ ks then
        ks.map (fun k => (k, if k = keyf a then upd (f k) a else f k))
      else ks.map (fun k => (k, f k)) ++ [(keyf a, init a)] := by
  induction ks with
  | nil => simp [groupFold]
  | cons k ks ih =>
      obtain ⟨hk, hnd2⟩ := List.nodup_cons.mp hnd
      by_cases hka : k = keyf a
      · subst hka
        simp only [List.map_cons, groupFold, if_pos rfl, List.mem_cons,
          true_or, if_true]
        congr 1
        apply List.map_congr_left
        intro x hx
        have hxa : x ≠ keyf a := fun hxk => hk (hxk ▸ hx)
        rw [if_neg hxa]
      · have hak : ¬ keyf a = k := fun h => hka h.symm
        simp only [List.map_cons, groupFold, if_neg hka, ih hnd2]
        by_cases hmem : keyf a ∈ ks
        · simp [hmem, hka, List.mem_cons]
        · simp [hmem, hak, List.mem_cons, List.cons_append]

/-- `x ∈ l` with `keyf x = k` makes the key-filtered list nonempty. -/
theorem keyFilter_ne_nil {α κ : Type} [DecidableEq κ] (keyf : α → κ)
    (l : List α) (k : κ) (hk : k ∈ l.map keyf) :
    l.filter (fun x => decide (keyf x = k)) ≠ [] := by
  obtain ⟨x, hx, hkx⟩ := List.mem_map.mp hk
  exact List.ne_nil_of_mem (List.mem_filter.mpr ⟨hx, by simp [hkx]⟩)

/-- Appending an item extends its own key's filtered sub-list by one. -/
theorem filter_concat_self {α κ : Type} [DecidableEq κ] (keyf : α → κ)
    (l : List α) (a : α) :
    (l ++ [a]).filter (fun x => decide (keyf x = keyf a)) =
      l.filter (fun x => decide (keyf x = keyf a)) ++ [a] := by
  simp [List.filter_append]

/-- Appending an item leaves every other key's filtered sub-list unchanged. -/
theorem filter_concat_other {α κ : Type} [DecidableEq κ] (keyf : α → κ)
    (l : List α) (a : α) (k : κ) (h : ¬ keyf a = k) :
    (l ++ [a]).filter (fun x => decide (keyf x = k)) =
      l.filter (fun x => decide (keyf x = k)) := by
  simp [List.filter_append, h]

/-- The central characterization: folding the dict-insertion step over the
whole input yields one entry per distinct key, in first-occurrence order,
whose payload is the fold of the key's filtered sub-list. -/
theorem foldl_groupFold_eq {α κ β : Type} [DecidableEq κ] [Inhabited β]
    (keyf : α → κ) (init : α → β) (upd : β → α → β) (l : List α) :
    l.foldl (groupFold keyf init upd) [] =
      (fdedup (l.map keyf)).map
        (fun k => (k, payloadOf init upd (l.filter (fun x => decide (keyf x = k))))) := by
  induction l using List.reverseRecOn with
  | nil => simp [fdedup]
  | append_singleton l a ih =>
      rw [List.foldl_append, List.foldl_cons, List.foldl_nil, ih,
        groupFold_on_map keyf init upd _ _ a (nodup_fdedup _)]
      rw [List.map_append, List.map_singleton, fdedup_concat]
      by_cases hmem : keyf a ∈ fdedup (l.map keyf)
      · rw [if_pos hmem]
        rw [if_pos hmem]
        apply List.map_congr_left
        intro k hkmem
        by_cases hk : k = keyf a
        · subst hk
          rw [if_pos rfl, filter_concat_self,
            payloadOf_concat _ _ _ _
              (keyFilter_ne_nil keyf l (keyf a) ((mem_fdedup _ _).mp hkmem))]
        · rw [if_neg hk, filter_concat_other keyf l a k (fun h => hk h.symm)]
      · rw [if_neg hmem]
        rw [if_neg hmem]
        rw [List.map_append, List.map_singleton]
        congr 1
        · apply List.map_congr_left
          intro k hkmem
          have hk : ¬ keyf a = k := fun h => hmem (h ▸ hkmem)
          rw [filter_concat_other keyf l a k hk]
        · have hfil : l.filter (fun x => decide (keyf x = keyf a)) = [] := by
            rw [List.filter_eq_nil_iff]
            intro x hx
            simp only [decide_eq_true_eq]
            intro hkx
            exact hmem ((mem_fdedup _ _).mpr (List.mem_map.mpr ⟨x, hx, hkx⟩))
          rw [filter_concat_self, hfil]
          rfl

theorem sumPayload_foldl (rest : List Item) : ∀ (q0 : Int) (l0 : List Item),
    rest.foldl (fun b it => (b.1 + it.quantity, b.2 ++ [it])) (q0, l0) =
      (q0 + (rest.map Item.quantity).sum, l0 ++ rest) := by
  induction rest with
  | nil => simp
  | cons it rest ih =>
      intro q0 l0
      rw [List.foldl_cons, ih]
      rw [List.map_cons, List.sum_cons]
      simp [add_assoc]

theorem sumPayload_eq (l : List Item) (h : l ≠ []) :
    payloadOf (fun it => (it.quantity, ([it] : List Item)))
      (fun b it => (b.1 + it.quantity, b.2 ++ [it])) l =
      ((l.map Item.quantity).sum, l) := by
  cases l with
  | nil => exact absurd rfl h
  | cons a rest => simp [payloadOf, sumPayload_foldl]

/-- `sum_duplicates` in closed form: one summed item per distinct `key3`, in
first-occurrence order, built from the key's filtered sub-list. -/
theorem sum_duplicates_eq (items : List Item) :
    sum_duplicates items =
      (fdedup (items.map key3)).map (fun k =>
        mkSummed (k, (((items.filter (fun x => decide (key3 x = k))).map
            Item.quantity).sum,
          items.filter (fun x => decide (key3 x = k))))) := by
  unfold sum_duplicates
  rw [foldl_groupFold_eq]
  rw [List.map_map]
  apply List.map_congr_left
  intro k hk
  simp only [Function.comp]
  rw [sumPayload_eq _ (keyFilter_ne_nil key3 items k ((mem_fdedup _ _).mp hk))]

theorem consPayload_foldl (rest : List Item) : ∀ (r : Consolidated),
    rest.foldl consUpd r =
      { r with
        sizes := r.sizes ++ rest.map (fun it => { size := it.size, quantity := it.quantity })
        total_quantity := r.total_quantity + (rest.map Item.quantity).sum } := by
  induction rest with
  | nil => simp
  | cons it rest ih =>
      intro r
      rw [List.foldl_cons, ih]
      simp [consUpd, add_assoc]

theorem consPayload_eq (l : List Item) (h : l ≠ []) :
    payloadOf consInit consUpd l =
      { item_num := (l.headD default).item_num
        color := (l.headD default).color
        description := (l.headD default).description
        sizes := l.map (fun it => { size := it.size, quantity := it.quantity })
        total_quantity := (l.map Item.quantity).sum } := by
  cases l with
  | nil => exact absurd rfl h
  | cons a rest => simp [payloadOf, consPayload_foldl, consInit]

/-- `consolidate_items` in closed form: one record per distinct `key2`, in
first-occurrence order, with descriptive fields from the first member, size
entries in encounter order and the summed total. -/
theorem consolidate_items_eq (items : List Item) :
    consolidate_items items =
      (fdedup (items.map key2)).map (fun k =>
        { item_num := ((items.filter (fun x => decide (key2 x = k))).headD default).item_num
          color := ((items.filter (fun x => decide (key2 x = k))).headD default).color
          description := ((items.filter (fun x => decide (key2 x = k))).headD default).description
          sizes := (items.filter (fun x => decide (key2 x = k))).map
            (fun it => { size := it.size, quantity := it.quantity })
          total_quantity := ((items.filter (fun x => decide (key2 x = k))).map
            Item.quantity).sum }) := by
  unfold consolidate_items
  rw [foldl_groupFold_eq]
  rw [List.map_map]
  apply List.map_congr_left
  intro k hk
  simp only [Function.comp]
  rw [consPayload_eq _ (keyFilter_ne_nil key2 items k ((mem_fdedup _ _).mp hk))]

/-- Filtering a keyed map of distinct keys for one key yields exactly the one
image of that key. -/
theorem map_filter_eq_single {κ γ : Type} [DecidableEq κ] (ks : List κ)
    (f : κ → γ) (keyg : γ → κ) (hnd : ks.Nodup)
    (hkey : ∀ k ∈ ks, keyg (f k) = k) (k : κ) (hk : k ∈ ks) :
    (ks.map f).filter (fun x => decide (keyg x = k)) = [f k] := by
  induction ks with
  | nil => cases hk
  | cons k1 ks ih =>
      obtain ⟨h1, hnd2⟩ := List.nodup_cons.mp hnd
      rw [List.map_cons, List.filter_cons]
      rcases List.mem_cons.mp hk with rfl | hkmem
      · rw [hkey k (List.mem_cons_self k ks)]
        have hfil : (ks.map f).filter (fun x => decide (keyg x = k)) = [] := by
          rw [List.filter_eq_nil_iff]
          intro x hx
          obtain ⟨k2, hk2, rfl⟩ := List.mem_map.mp hx
          rw [hkey k2 (List.mem_cons_of_mem k hk2)]
          simp only [decide_eq_true_eq]
          intro hkk
          exact h1 (hkk ▸ hk2)
        simp [hfil]
      · have hne : keyg (f k1) ≠ k := by
          rw [hkey k1 (List.mem_cons_self k1 ks)]
          intro hkk
          exact h1 (hkk ▸ hkmem)
        have hcond : ¬ (decide (keyg (f k1) = k) = true) := by simp [hne]
        rw [if_neg hcond]
        exact ih hnd2 (fun k2 hk2 => hkey k2 (List.mem_cons_of_mem k1 hk2)) hkmem

/-- The append-loop of `process_tall_sizes` is a map. -/
theorem foldl_concat_eq_map {α β : Type} (f : α → β) (l : List α) :
    ∀ acc : List β, l.foldl (fun processed x => processed ++ [f x]) acc =
      acc ++ l.map f := by
  induction l with
  | nil => simp
  | cons x l ih =>
      intro acc
      rw [List.foldl_cons, ih]
      simp

theorem process_tall_sizes_eq_map (items : List Item) :
    process_tall_sizes items = items.map tallStep := by
  unfold process_tall_sizes
  rw [foldl_concat_eq_map]
  simp

/-- The Python truthiness guard `(item.get("description") or "")` is the
identity on strings. -/
theorem pyOrEmpty (d : String) : (if d = "" then "" else d) = d := by
  by_cases h : d = ""
  · rw [if_pos h, h]
  · rw [if_neg h]

/-- Splitting the sum of a mapped list at a Boolean filter. -/
theorem sum_map_filter_split {α : Type} (p : α → Bool) (q : α → Int)
    (l : List α) :
    ((l.filter p).map q).sum + ((l.filter (fun a => !(p a))).map q).sum =
      (l.map q).sum := by
  induction l with
  | nil => simp
  | cons a l ih =>
      by_cases h : p a = true
      · simp only [List.filter_cons, h, if_true, Bool.not_true,
          Bool.false_eq_true, if_false, List.map_cons, List.sum_cons]
        omega
      · simp [List.filter_cons, h]
        omega

/-- Summing the per-key filtered sums over a duplicate-free covering key list
gives the total sum. -/
theorem sum_over_keys {α κ : Type} [DecidableEq κ] (keyf : α → κ) (q : α → Int)
    (ks : List κ) :
    ∀ l : List α, ks.Nodup → (∀ a ∈ l, keyf a ∈ ks) →
      (ks.map (fun k => ((l.filter (fun x => decide (keyf x = k))).map q).sum)).sum
        = (l.map q).sum := by
  induction ks with
  | nil =>
      intro l _ hcov
      cases l with
      | nil => simp
      | cons a l => exact absurd (hcov a (List.mem_cons_self a l)) (List.not_mem_nil _)
  | cons k ks ih =>
      intro l hnd hcov
      obtain ⟨h1, hnd2⟩ := List.nodup_cons.mp hnd
      have hcov2 : ∀ a ∈ l.filter (fun x => !(decide (keyf x = k))), keyf a ∈ ks := by
        intro a ha
        obtain ⟨hal, hbool⟩ := List.mem_filter.mp ha
        rcases List.mem_cons.mp (hcov a hal) with h | h
        · exfalso
          simp [h] at hbool
        · exact h
      have hrest := ih (l.filter (fun x => !(decide (keyf x = k)))) hnd2 hcov2
      have hmapeq : ks.map (fun k2 =>
            (((l.filter (fun x => !(decide (keyf x = k)))).filter
              (fun x => decide (keyf x = k2))).map q).sum)
          = ks.map (fun k2 =>
            ((l.filter (fun x => decide (keyf x = k2))).map q).sum) := by
        apply List.map_congr_left
        intro k2 hk2
        have hne : k2 ≠ k := fun h => h1 (h ▸ hk2)
        have hfe : (l.filter (fun x => !(decide (keyf x = k)))).filter
              (fun x => decide (keyf x = k2))
            = l.filter (fun x => decide (keyf x = k2)) := by
          rw [List.filter_filter]
          apply List.filter_congr
          intro x hx
          by_cases hxk : keyf x = k2
          · simp [hxk, hne]
          · simp [hxk]
        rw [hfe]
      rw [hmapeq] at hrest
      rw [List.map_cons, List.sum_cons, hrest,
        sum_map_filter_split (fun x => decide (keyf x = k)) q l]

/-- C5: size normalization via `parse_size_field` is idempotent on every
recognized token: normalizing an already-normalized token changes nothing. -/
theorem spec_size_norm_idempotent :
    ∀ x ∈ recognizedSizeTokens,
      parse_size_field (parse_size_field x) = parse_size_field x := by decide

theorem spec_size_norm_idempotent_witness :
    "SMALL" ∈ recognizedSizeTokens ∧
      parse_size_field (parse_size_field "SMALL") = parse_size_field "SMALL" :=
  ⟨by decide, spec_size_norm_idempotent "SMALL" (by decide)⟩

/-- C6: `parse_size_field` strips, keeps the leading token, upper-cases and
maps through the table, passing unknown tokens through; in particular
`"2XL ($3.50)"` yields `"2XL"`, `"Small"` yields `"S"`, and `"LT"`/`"2XLT"`
pass through. -/
theorem spec_parse_size_field_behavior :
    (∀ s : String, parse_size_field s = sizeFieldSpec s) ∧
    parse_size_field "2XL ($3.50)" = "2XL" ∧
    parse_size_field "Small" = "S" ∧
    parse_size_field "LT" = "LT" ∧
    parse_size_field "2XLT" = "2XLT" := by
  refine ⟨?_, by decide, by decide, by decide, by decide⟩
  intro s
  by_cases h : s = ""
  · subst h
    decide
  · simp only [parse_size_field, sizeFieldSpec, if_neg h]

/-- C2 counterexample: the append is not idempotent — on an item whose
description already ends with `" - Tall"`, `process_tall_sizes` appends the
suffix again, producing `"Tall Tee - Tall - Tall"` instead of leaving the
description at `"Tall Tee - Tall"`. -/
theorem spec_tall_append_not_idempotent_cex :
    tallCexItem.description = "Tall Tee" ++ " - Tall" ∧
    (process_tall_sizes [tallCexItem]).map Item.description =
      ["Tall Tee" ++ " - Tall" ++ " - Tall"] ∧
    "Tall Tee" ++ " - Tall" ++ " - Tall" ≠ "Tall Tee" ++ " - Tall" := by decide

/-- C2 (amended): `process_tall_sizes` is a 1:1 transform that never drops
items; every tall item is replaced by one with the base size, `" - Tall"`
appended (unconditionally — it appends again even when the suffix is already
present), and tall provenance set, and every non-tall item passes through
unchanged. -/
theorem spec_tall_expander_one_to_one (items : List Item) :
    (process_tall_sizes items).length = items.length ∧
    ∀ i it, items.get? i = some it →
      (is_tall_size it.size = true →
        (process_tall_sizes items).get? i = some
          { it with
            size := get_base_size it.size
            description := it.description ++ " - Tall"
            is_tall := true
            original_size := it.size }) ∧
      (is_tall_size it.size = false →
        (process_tall_sizes items).get? i = some it) := by
  rw [process_tall_sizes_eq_map]
  constructor
  · exact List.length_map items tallStep
  · intro i it hit
    constructor
    · intro htall
      rw [List.get?_map, hit, Option.map_some']
      rw [tallStep, if_pos htall, pyOrEmpty]
    · intro hfalse
      rw [List.get?_map, hit, Option.map_some']
      rw [tallStep, if_neg (by simp [hfalse])]

theorem spec_tall_expander_one_to_one_witness :
    (process_tall_sizes [tallWitItem]).length = 1 ∧
    (process_tall_sizes [tallWitItem]).get? 0 = some
      { tallWitItem with
        size := "L"
        description := " - Tall"
        is_tall := true
        original_size := "LT" } := by
  have h := spec_tall_expander_one_to_one [tallWitItem]
  refine ⟨h.1, ?_⟩
  have h2 := (h.2 0 tallWitItem rfl).1 (by decide)
  exact h2.trans (by decide)

/-- C1: running `process_tall_sizes` before `sum_duplicates` (the order used
by `read_csv`) merges a parsed `"LT"` qty-5 item and a parsed `"L"` qty-3 item
with the same item_num and color into a single `"L"` item of quantity 8 whose
description contains `" - Tall"`. -/
theorem spec_tall_expansion_precedes_summing (n c : String) :
    ∃ it : Item,
      sum_duplicates (process_tall_sizes
        [mkParsedItem n c "LT" 5 2 "LT", mkParsedItem n c "L" 3 3 "L"]) = [it] ∧
      it.size = "L" ∧ it.quantity = 8 ∧
      ∃ pre post : String, it.description = pre ++ " - Tall" ++ post := by
  refine ⟨{ quantity := 8, size := "L", item_num := n, color := c,
            description := " - Tall", row_num := 2, size_raw := "LT",
            is_tall := true, original_size := "LT",
            summed_from := some [2, 3] },
    ?_, rfl, rfl, "", "", rfl⟩
  rw [process_tall_sizes_eq_map]
  have e1 : tallStep (mkParsedItem n c "LT" 5 2 "LT") =
      { quantity := 5, size := "L", item_num := n, color := c,
        description := " - Tall", row_num := 2, size_raw := "LT",
        is_tall := true, original_size := "LT" } := rfl
  have e2 : tallStep (mkParsedItem n c "L" 3 3 "L") =
      mkParsedItem n c "L" 3 3 "L" := rfl
  rw [List.map_cons, List.map_cons, List.map_nil, e1, e2]
  simp [sum_duplicates, groupFold, mkSummed, key3, mkParsedItem]

/-- The head of a nonempty key-filtered list carries the key. -/
theorem headD_filter_key {α κ : Type} [DecidableEq κ] [Inhabited α]
    (keyf : α → κ) (l : List α) (k : κ)
    (h : l.filter (fun x => decide (keyf x = k)) ≠ []) :
    keyf ((l.filter (fun x => decide (keyf x = k))).headD default) = k := by
  cases hfe : l.filter (fun x => decide (keyf x = k)) with
  | nil => exact absurd hfe h
  | cons a t =>
      have ha : a ∈ l.filter (fun x => decide (keyf x = k)) :=
        hfe ▸ List.mem_cons_self a t
      have h2 := (List.mem_filter.mp ha).2
      exact of_decide_eq_true h2

/-- C3: `sum_duplicates` produces exactly one output item per distinct
case-insensitive trimmed (item_num, color, size) triple; its quantity is the
sum of the group's quantities and its item_num, color and description are
those of the first group member. -/
theorem spec_sum_duplicates_groups (items : List Item)
    (k : String × String × String) (hk : k ∈ items.map key3) :
    (sum_duplicates items).length = (fdedup (items.map key3)).length ∧
    ∃ it : Item,
      (sum_duplicates items).filter (fun x => decide (key3 x = k)) = [it] ∧
      it.quantity =
        ((items.filter (fun x => decide (key3 x = k))).map Item.quantity).sum ∧
      it.item_num =
        ((items.filter (fun x => decide (key3 x = k))).headD default).item_num ∧
      it.color =
        ((items.filter (fun x => decide (key3 x = k))).headD default).color ∧
      it.description =
        ((items.filter (fun x => decide (key3 x = k))).headD default).description := by
  constructor
  · rw [sum_duplicates_eq, List.length_map]
  · have hnd := nodup_fdedup (items.map key3)
    have hkf : k ∈ fdedup (items.map key3) := (mem_fdedup _ _).mpr hk
    have hkey : ∀ k2 ∈ fdedup (items.map key3),
        key3 (mkSummed (k2,
          (((items.filter (fun x => decide (key3 x = k2))).map Item.quantity).sum,
            items.filter (fun x => decide (key3 x = k2))))) = k2 := by
      intro k2 hk2
      have hne := keyFilter_ne_nil key3 items k2 ((mem_fdedup _ _).mp hk2)
      exact headD_filter_key key3 items k2 hne
    refine ⟨mkSummed (k,
        (((items.filter (fun x => decide (key3 x = k))).map Item.quantity).sum,
          items.filter (fun x => decide (key3 x = k)))), ?_, rfl, rfl, rfl, rfl⟩
    rw [sum_duplicates_eq]
    exact map_filter_eq_single (fdedup (items.map key3)) _ key3 hnd hkey k hkf

theorem spec_sum_duplicates_groups_witness :
    ∃ it : Item,
      (sum_duplicates dupItems).filter (fun x => decide (key3 x = dupKey)) = [it] ∧
      it.quantity = 10 := by
  obtain ⟨-, it, h1, h2, -⟩ :=
    spec_sum_duplicates_groups dupItems dupKey (by decide)
  refine ⟨it, h1, ?_⟩
  rw [h2]
  decide

/-- C4: `consolidate_items` produces exactly one record per distinct
case-insensitive trimmed (item_num, color) pair; its `sizes` list has one
entry per contributing item in encounter order and its `total_quantity` is
the sum of the quantities in that list. -/
theorem spec_consolidate_groups (items : List Item) (k : String × String)
    (hk : k ∈ items.map key2) :
    (consolidate_items items).length = (fdedup (items.map key2)).length ∧
    ∃ r : Consolidated,
      (consolidate_items items).filter (fun x => decide (consKey x = k)) = [r] ∧
      r.sizes = (items.filter (fun x => decide (key2 x = k))).map
        (fun it => { size := it.size, quantity := it.quantity }) ∧
      r.total_quantity = (r.sizes.map SizeEntry.quantity).sum ∧
      r.item_num =
        ((items.filter (fun x => decide (key2 x = k))).headD default).item_num ∧
      r.color =
        ((items.filter (fun x => decide (key2 x = k))).headD default).color ∧
      r.description =
        ((items.filter (fun x => decide (key2 x = k))).headD default).description := by
  constructor
  · rw [consolidate_items_eq, List.length_map]
  · have hnd := nodup_fdedup (items.map key2)
    have hkf : k ∈ fdedup (items.map key2) := (mem_fdedup _ _).mpr hk
    have hkey : ∀ k2 ∈ fdedup (items.map key2),
        consKey
          { item_num := ((items.filter (fun x => decide (key2 x = k2))).headD default).item_num
            color := ((items.filter (fun x => decide (key2 x = k2))).headD default).color
            description := ((items.filter (fun x => decide (key2 x = k2))).headD default).description
            sizes := (items.filter (fun x => decide (key2 x = k2))).map
              (fun it => { size := it.size, quantity := it.quantity })
            total_quantity := ((items.filter (fun x => decide (key2 x = k2))).map
              Item.quantity).sum } = k2 := by
      intro k2 hk2
      have hne := keyFilter_ne_nil key2 items k2 ((mem_fdedup _ _).mp hk2)
      exact headD_filter_key key2 items k2 hne
    refine ⟨{ item_num := ((items.filter (fun x => decide (key2 x = k))).headD default).item_num
              color := ((items.filter (fun x => decide (key2 x = k))).headD default).color
              description := ((items.filter (fun x => decide (key2 x = k))).headD default).description
              sizes := (items.filter (fun x => decide (key2 x = k))).map
                (fun it => { size := it.size, quantity := it.quantity })
              total_quantity := ((items.filter (fun x => decide (key2 x = k))).map
                Item.quantity).sum },
      ?_, rfl, ?_, rfl, rfl, rfl⟩
    · rw [consolidate_items_eq]
      exact map_filter_eq_single (fdedup (items.map key2)) _ consKey hnd hkey k hkf
    · rw [List.map_map]
      rfl

theorem spec_consolidate_groups_witness :
    (consolidate_items consItems).length = 1 ∧
    ∃ r : Consolidated,
      (consolidate_items consItems).filter
        (fun x => decide (consKey x = consKeyW)) = [r] ∧
      r.sizes = [{ size := "S", quantity := 5 }, { size := "M", quantity := 3 }] ∧
      r.total_quantity = 8 := by
  obtain ⟨hlen, r, h1, h2, h3, -⟩ :=
    spec_consolidate_groups consItems consKeyW (by decide)
  refine ⟨?_, r, h1, ?_, ?_⟩
  · rw [hlen]
    decide
  · rw [h2]
    decide
  · rw [h3, h2]
    decide

/-- C10: every pipeline stage conserves the total quantity: `process_tall_sizes`
and `sum_duplicates` preserve the sum of item quantities, and the
`total_quantity` fields of `consolidate_items` sum to the same total. -/
theorem spec_quantity_conserved (items : List Item) :
    ((process_tall_sizes items).map Item.quantity).sum
        = (items.map Item.quantity).sum ∧
    ((sum_duplicates items).map Item.quantity).sum
        = (items.map Item.quantity).sum ∧
    ((consolidate_items items).map Consolidated.total_quantity).sum
        = (items.map Item.quantity).sum := by
  refine ⟨?_, ?_, ?_⟩
  · rw [process_tall_sizes_eq_map, List.map_map]
    apply congrArg List.sum
    apply List.map_congr_left
    intro it _
    show (tallStep it).quantity = it.quantity
    rw [tallStep]
    split <;> rfl
  · rw [sum_duplicates_eq, List.map_map]
    exact sum_over_keys key3 Item.quantity (fdedup (items.map key3)) items
      (nodup_fdedup _)
      (fun a ha => (mem_fdedup _ _).mpr (List.mem_map_of_mem key3 ha))
  · rw [consolidate_items_eq, List.map_map]
    exact sum_over_keys key2 Item.quantity (fdedup (items.map key2)) items
      (nodup_fdedup _)
      (fun a ha => (mem_fdedup _ _).mpr (List.mem_map_of_mem key2 ha))

/-- C7: the trimmed item_num cell, when it parses as a float equal to an
integer value, is canonicalized to that integer's string form — `"112.0"`
becomes `"112"`, `"1.5e2"` becomes `"150"`, `"1_2.0"` becomes `"12"`, and an
18-digit `".0"` literal becomes the rounded float's integer string — and an
item_num that canonicalizes to empty yields a warning and the row is
skipped. -/
theorem spec_item_num_canonicalized :
    (∀ (t : String) (M E : Int),
      t ≠ "" → '.' ∈ t.data →
      pyFloat t = some (.finite M E) →
      isIntegerDouble M E = true →
      canonItemNum t = .ok (toString (truncDouble M E))) ∧
    (∀ s : String, pyStrip s = "" →
      parse_rows_to_items hsDemo [["1", s]] cmDemo =
        .ok ([], ["Row 2: Missing item number - skipped"])) ∧
    (∀ (s t : String), canonItemNum (pyStrip s) = .ok t → t ≠ "" →
      parse_rows_to_items hsDemo [["1", s]] cmDemo =
        .ok ([demoKeepItem t], [])) ∧
    canonItemNum "112.0" = .ok "112" ∧
    canonItemNum "1.5e2" = .ok "150" ∧
    canonItemNum "1_2.0" = .ok "12" ∧
    canonItemNum "123456789012345678.0" = .ok "123456789012345680" := by
  refine ⟨?_, ?_, ?_, by decide, by decide, by decide, by decide⟩
  · intro t M E ht hdot hp hint
    simp [canonItemNum, ht, hdot, hp, hint]
  · intro s hs
    have hshape : processRow 0 1 none none 2 ["1", s] =
        (match canonItemNum (pyStrip s) with
         | .overflow => RowResult.fatal "cannot convert float infinity to integer"
         | .ok t =>
             if t = "" then RowResult.drop "Row 2: Missing item number - skipped"
             else RowResult.keep (demoKeepItem t)) := rfl
    have hpr : processRow 0 1 none none 2 ["1", s] =
        RowResult.drop "Row 2: Missing item number - skipped" := by
      rw [hshape, hs]
      rfl
    have hloop : parseLoop 0 1 none none 2 [["1", s]] =
        .ok ([], ["Row 2: Missing item number - skipped"]) := by
      simp only [parseLoop, hpr]
    simp [parse_rows_to_items, cmDemo, hloop]
  · intro s t hc ht
    have hshape : processRow 0 1 none none 2 ["1", s] =
        (match canonItemNum (pyStrip s) with
         | .overflow => RowResult.fatal "cannot convert float infinity to integer"
         | .ok t2 =>
             if t2 = "" then RowResult.drop "Row 2: Missing item number - skipped"
             else RowResult.keep (demoKeepItem t2)) := rfl
    have hpr : processRow 0 1 none none 2 ["1", s] =
        RowResult.keep (demoKeepItem t) := by
      rw [hshape, hc]
      simp [ht]
    have hloop : parseLoop 0 1 none none 2 [["1", s]] =
        .ok ([demoKeepItem t], []) := by
      simp only [parseLoop, hpr]
    simp [parse_rows_to_items, cmDemo, hloop]

theorem spec_item_num_canonicalized_witness :
    canonItemNum "112.0" = .ok (toString (truncDouble 7881299347898368 (-46))) ∧
    parse_rows_to_items hsDemo [["1", "  "]] cmDemo =
      .ok ([], ["Row 2: Missing item number - skipped"]) ∧
    parse_rows_to_items hsDemo [["1", "112.0"]] cmDemo =
      .ok ([demoKeepItem "112"], []) :=
  ⟨spec_item_num_canonicalized.1 "112.0" 7881299347898368 (-46)
      (by decide) (by decide) (by decide) (by decide),
   spec_item_num_canonicalized.2.1 "  " (by decide),
   spec_item_num_canonicalized.2.2.1 "112.0" "112" (by decide) (by decide)⟩

/-- C8 counterexample: with both mandatory columns resolved, a quantity cell
`"inf"` aborts the whole file — `int(float("inf"))` raises an
`OverflowError` that `except (ValueError, TypeError)` does not catch — so
the claimed "fatal error exactly when qty or item_num resolve to None"
biconditional is false at this input. -/
theorem spec_qty_inf_aborts_cex :
    parse_rows_to_items hsDemo [["inf", "X"]] cmDemo =
      .error (.overflowError "cannot convert float infinity to integer") ∧
    ¬ ((∃ e, parse_rows_to_items hsDemo [["inf", "X"]] cmDemo = .error e) ↔
        (cmDemo.qty = none ∨ cmDemo.item_num = none)) := by
  refine ⟨rfl, ?_⟩
  intro h
  rcases h.mp ⟨.overflowError "cannot convert float infinity to integer", rfl⟩
    with hc | hc
  · exact absurd hc (by decide)
  · exact absurd hc (by decide)

/-- C8 (amended): the deliberate `ValueError` ("Required columns not found")
is raised exactly when the column map resolves qty or item_num to `None`;
the enumerated row-level problems — quantity with a caught `ValueError`,
non-positive quantity, missing item number — drop only the offending row
with a warning and processing continues in row order; but a cell whose float
conversion yields an infinity (a quantity cell, or a dotted item-number
cell) aborts the whole file with an uncaught `OverflowError`. -/
theorem spec_fatal_vs_row_errors_amended :
    (∀ (hs : List String) (rows : List (List String)) (cm : ColumnMap),
      (∃ m, parse_rows_to_items hs rows cm = .error (.valueError m)) ↔
        (cm.qty = none ∨ cm.item_num = none)) ∧
    (∀ (qi ii : Nat) (si ci : Option Nat) (rn : Nat) (row : List String) rest,
      ¬(row = [] ∨ row.all (fun cell => cell = "") = true) →
      cellAt row qi ≠ "" →
      pyIntOfFloat (cellAt row qi) = .valueError →
      parseLoop qi ii si ci rn (row :: rest) =
        (parseLoop qi ii si ci (rn + 1) rest).map (fun r =>
          (r.1, ("Row " ++ toString rn ++ ": Invalid quantity " ++ sqCh
            ++ cellAt row qi ++ sqCh ++ " - skipped") :: r.2))) ∧
    (∀ (qi ii : Nat) (si ci : Option Nat) (rn : Nat) (row : List String) rest
        (q : Int),
      ¬(row = [] ∨ row.all (fun cell => cell = "") = true) →
      (if cellAt row qi = "" then PyIntResult.ok 0
       else pyIntOfFloat (cellAt row qi)) = .ok q →
      q ≤ 0 →
      parseLoop qi ii si ci rn (row :: rest) =
        (parseLoop qi ii si ci (rn + 1) rest).map (fun r =>
          (r.1, ("Row " ++ toString rn ++ ": Zero/negative quantity - skipped")
            :: r.2))) ∧
    (∀ (qi ii : Nat) (si ci : Option Nat) (rn : Nat) (row : List String) rest
        (q : Int),
      ¬(row = [] ∨ row.all (fun cell => cell = "") = true) →
      (if cellAt row qi = "" then PyIntResult.ok 0
       else pyIntOfFloat (cellAt row qi)) = .ok q →
      ¬ q ≤ 0 →
      canonItemNum (pyStrip (cellAt row ii)) = .ok "" →
      parseLoop qi ii si ci rn (row :: rest) =
        (parseLoop qi ii si ci (rn + 1) rest).map (fun r =>
          (r.1, ("Row " ++ toString rn ++ ": Missing item number - skipped")
            :: r.2))) ∧
    (∀ (qi ii : Nat) (si ci : Option Nat) (rn : Nat) (row : List String) rest
        (it : Item),
      processRow qi ii si ci rn row = .keep it →
      parseLoop qi ii si ci rn (row :: rest) =
        (parseLoop qi ii si ci (rn + 1) rest).map (fun r =>
          (it :: r.1, r.2))) ∧
    (∀ (qi ii : Nat) (si ci : Option Nat) (rn : Nat) (row : List String) rest,
      ¬(row = [] ∨ row.all (fun cell => cell = "") = true) →
      cellAt row qi ≠ "" →
      pyIntOfFloat (cellAt row qi) = .overflowError →
      parseLoop qi ii si ci rn (row :: rest) =
        .error "cannot convert float infinity to integer") ∧
    (∀ (qi ii : Nat) (si ci : Option Nat) (rn : Nat) (row : List String) rest
        (q : Int),
      ¬(row = [] ∨ row.all (fun cell => cell = "") = true) →
      (if cellAt row qi = "" then PyIntResult.ok 0
       else pyIntOfFloat (cellAt row qi)) = .ok q →
      ¬ q ≤ 0 →
      canonItemNum (pyStrip (cellAt row ii)) = .overflow →
      parseLoop qi ii si ci rn (row :: rest) =
        .error "cannot convert float infinity to integer") := by
  refine ⟨?_, ?_, ?_, ?_, ?_, ?_, ?_⟩
  · intro hs rows cm
    constructor
    · intro h
      obtain ⟨m, he⟩ := h
      cases hq : cm.qty with
      | none => exact Or.inl rfl
      | some qi =>
          cases hi : cm.item_num with
          | none => exact Or.inr rfl
          | some ii =>
              exfalso
              simp only [parse_rows_to_items, hq, hi] at he
              cases hp : parseLoop qi ii cm.size cm.color 2 rows with
              | ok r => simp [hp] at he
              | error m2 => simp [hp] at he
    · intro h
      rcases h with h | h
      · exact ⟨"Required columns not found: qty and item_num are mandatory",
          by simp [parse_rows_to_items, h]⟩
      · cases hq : cm.qty with
        | none =>
            exact ⟨"Required columns not found: qty and item_num are mandatory",
              by simp [parse_rows_to_items, hq]⟩
        | some qi =>
            exact ⟨"Required columns not found: qty and item_num are mandatory",
              by simp [parse_rows_to_items, hq, h]⟩
  · intro qi ii si ci rn row rest hblank hqne hqval
    have hpr : processRow qi ii si ci rn row =
        .drop ("Row " ++ toString rn ++ ": Invalid quantity " ++ sqCh
          ++ cellAt row qi ++ sqCh ++ " - skipped") := by
      unfold processRow
      rw [if_neg hblank, if_neg hqne, hqval]
    simp only [parseLoop, hpr]
    cases parseLoop qi ii si ci (rn + 1) rest <;> rfl
  · intro qi ii si ci rn row rest q hblank hq hle
    have hpr : processRow qi ii si ci rn row =
        .drop ("Row " ++ toString rn ++ ": Zero/negative quantity - skipped") := by
      unfold processRow
      rw [if_neg hblank, hq]
      simp only [if_pos hle]
    simp only [parseLoop, hpr]
    cases parseLoop qi ii si ci (rn + 1) rest <;> rfl
  · intro qi ii si ci rn row rest q hblank hq hpos hitem
    have hpr : processRow qi ii si ci rn row =
        .drop ("Row " ++ toString rn ++ ": Missing item number - skipped") := by
      unfold processRow
      rw [if_neg hblank, hq]
      simp only [if_neg hpos, hitem]
      rfl
    simp only [parseLoop, hpr]
    cases parseLoop qi ii si ci (rn + 1) rest <;> rfl
  · intro qi ii si ci rn row rest it hpr
    simp only [parseLoop, hpr]
    cases parseLoop qi ii si ci (rn + 1) rest <;> rfl
  · intro qi ii si ci rn row rest hblank hqne hqover
    have hpr : processRow qi ii si ci rn row =
        .fatal "cannot convert float infinity to integer" := by
      unfold processRow
      rw [if_neg hblank, if_neg hqne, hqover]
    simp only [parseLoop, hpr]
  · intro qi ii si ci rn row rest q hblank hq hpos hitem
    have hpr : processRow qi ii si ci rn row =
        .fatal "cannot convert float infinity to integer" := by
      unfold processRow
      rw [if_neg hblank, hq]
      simp only [if_neg hpos, hitem]
    simp only [parseLoop, hpr]

theorem spec_fatal_vs_row_errors_amended_witness :
    (∃ m, parse_rows_to_items hsDemo [] ⟨none, none, some 0, none⟩ =
      .error (.valueError m)) ∧
    parseLoop 0 1 none none 2 [["abc", "X"]] =
      .ok ([], ["Row 2: Invalid quantity " ++ sqCh ++ "abc" ++ sqCh
        ++ " - skipped"]) ∧
    parseLoop 0 1 none none 2 [["0", "X"], ["-1", "X"], ["5", "Y"]] =
      .ok ([{ quantity := 5, size := "", item_num := "Y", color := "",
              description := "", row_num := 4, size_raw := "" }],
           ["Row 2: Zero/negative quantity - skipped",
            "Row 3: Zero/negative quantity - skipped"]) ∧
    parseLoop 0 1 none none 2 [["5", "  "]] =
      .ok ([], ["Row 2: Missing item number - skipped"]) ∧
    parseLoop 0 1 none none 2 [["5", "Z"]] =
      .ok ([{ quantity := 5, size := "", item_num := "Z", color := "",
              description := "", row_num := 2, size_raw := "" }], []) ∧
    parseLoop 0 1 none none 2 [["inf", "X"]] =
      .error "cannot convert float infinity to integer" := by
  refine ⟨(spec_fatal_vs_row_errors_amended.1 hsDemo []
      ⟨none, none, some 0, none⟩).mpr (Or.inl rfl), ?_, ?_, ?_, ?_, ?_⟩
  · exact (spec_fatal_vs_row_errors_amended.2.1 0 1 none none 2 ["abc", "X"] []
      (by decide) (by decide) (by decide)).trans (by rfl)
  · exact (spec_fatal_vs_row_errors_amended.2.2.1 0 1 none none 2 ["0", "X"]
      [["-1", "X"], ["5", "Y"]] 0 (by decide) (by decide) (by decide)).trans
      (by rfl)
  · exact (spec_fatal_vs_row_errors_amended.2.2.2.1 0 1 none none 2 ["5", "  "]
      [] 5 (by decide) (by decide) (by decide) (by decide)).trans (by rfl)
  · exact (spec_fatal_vs_row_errors_amended.2.2.2.2.1 0 1 none none 2
      ["5", "Z"] []
      { quantity := 5, size := "", item_num := "Z", color := "",
        description := "", row_num := 2, size_raw := "" }
      (by decide)).trans (by rfl)
  · exact spec_fatal_vs_row_errors_amended.2.2.2.2.2.1 0 1 none none 2
      ["inf", "X"] [] (by decide) (by decide) (by decide)

theorem replicate_all_blank (m : Nat) :
    (List.replicate m ("" : String)).all (fun cell => cell = "") = true := by
  induction m with
  | zero => rfl
  | succ m ih => simp [List.replicate_succ, List.all_cons, ih]

theorem cellAt_pad (n : Nat) (row : List String) (i : Nat) :
    cellAt (padRow n row) i = cellAt row i := by
  unfold cellAt padRow
  by_cases h : i < row.length
  · have h2 : i < (row ++ List.replicate (n - row.length) "").length := by
      rw [List.length_append]
      omega
    rw [dif_pos h, dif_pos h2]
    simp only [List.get_eq_getElem]
    exact List.getElem_append_left h
  · rw [dif_neg h]
    by_cases h2 : i < (row ++ List.replicate (n - row.length) "").length
    · rw [dif_pos h2]
      simp only [List.get_eq_getElem]
      rw [List.getElem_append_right (Nat.le_of_not_lt h)]
      exact List.getElem_replicate ..
    · rw [dif_neg h2]

theorem cellAtOpt_pad (n : Nat) (row : List String) (oi : Option Nat) :
    cellAtOpt (padRow n row) oi = cellAtOpt row oi := by
  cases oi with
  | none => rfl
  | some i => exact cellAt_pad n row i

theorem blank_pad (n : Nat) (row : List String) :
    (padRow n row = [] ∨ (padRow n row).all (fun cell => cell = "") = true) ↔
      (row = [] ∨ row.all (fun cell => cell = "") = true) := by
  cases row with
  | nil =>
      refine ⟨fun _ => Or.inl rfl, fun _ => Or.inr ?_⟩
      show (padRow n []).all (fun cell => cell = "") = true
      unfold padRow
      rw [List.nil_append]
      exact replicate_all_blank _
  | cons c cs =>
      simp only [padRow, List.cons_append, List.all_cons, List.all_append,
        replicate_all_blank, Bool.and_true]
      constructor
      · rintro (h | h)
        · exact absurd h (List.cons_ne_nil c _)
        · exact Or.inr h
      · rintro (h | h)
        · exact absurd h (List.cons_ne_nil c cs)
        · exact Or.inr h

theorem processRow_pad (qi ii : Nat) (si ci : Option Nat) (rn n : Nat)
    (row : List String) :
    processRow qi ii si ci rn (padRow n row) = processRow qi ii si ci rn row := by
  unfold processRow
  by_cases hb : row = [] ∨ row.all (fun cell => cell = "") = true
  · rw [if_pos hb, if_pos ((blank_pad n row).mpr hb)]
  · rw [if_neg hb, if_neg (fun h => hb ((blank_pad n row).mp h))]
    simp only [cellAt_pad, cellAtOpt_pad]

/-- C9: `parse_rows_to_items` tolerates rows shorter than any detected column
index: an out-of-range cell reads as the empty string, so padding every row
with empty cells never changes the outcome. -/
theorem spec_short_rows_tolerated :
    (∀ (row : List String) (i : Nat), row.length ≤ i → cellAt row i = "") ∧
    (∀ (qi ii : Nat) (si ci : Option Nat) (rn n : Nat)
        (rows : List (List String)),
      parseLoop qi ii si ci rn (rows.map (padRow n)) =
        parseLoop qi ii si ci rn rows) := by
  constructor
  · intro row i h
    unfold cellAt
    rw [dif_neg (Nat.not_lt.mpr h)]
  · intro qi ii si ci rn n rows
    induction rows generalizing rn with
    | nil => rfl
    | cons row rest ih =>
        simp only [List.map_cons, parseLoop, processRow_pad, ih]

theorem spec_short_rows_tolerated_witness :
    cellAt ["5"] 1 = "" ∧
    parseLoop 0 1 none none 2 (([["5"]] : List (List String)).map (padRow 2)) =
      parseLoop 0 1 none none 2 [["5"]] :=
  ⟨spec_short_rows_tolerated.1 ["5"] 1 (by decide),
   spec_short_rows_tolerated.2 0 1 none none 2 2 [["5"]]⟩
